import Mathlib

/-!
Verification development for the spl-c-tokens-prototype confidential-token
program.  The Rust sources under src/ are shallowly embedded here:

* bytes are lists of `Fin 256`; little-endian u64 encoding is explicit;
* the Ristretto group is modelled as the cyclic group `ZMod ell` of the
  actual Ristretto prime order `ell`, written additively with the basepoint
  `G = 1`; scalars are likewise `ZMod ell` (the scalar field);
* the external libraries (curve25519-dalek compression and decompression,
  sha3 hashing, the bulletproofs verifier) are abstracted as a `Primitives`
  record; theorems quantify over it or instantiate it concretely;
* a Rust panic (an `unwrap` on `None`, or an out-of-range slice borrow) is
  modelled by the `Outcome.panics` constructor; a normal return is
  `Outcome.returns`.
-/

namespace CToken

/-- A byte. -/
abbrev Byte := Fin 256

/-- A byte string (Rust `&[u8]` / `Vec<u8>`). -/
abbrev Bytes := List Byte

/-- Little-endian decoding of a byte string into a natural number. -/
def leDecode (b : Bytes) : Nat :=
  b.foldr (fun x acc => x.val + 256 * acc) 0

/-- Little-endian encoding of `n` into exactly `k` bytes (Rust `u64` fields
are stored via `to_le_bytes`, `k = 8`). -/
def leEncode : Nat → Nat → Bytes
  | _, 0 => []
  | n, k + 1 => (⟨n % 256, Nat.mod_lt n (by decide)⟩ : Byte) :: leEncode (n / 256) k

theorem leEncode_length (n k : Nat) : (leEncode n k).length = k := by
  induction k generalizing n with
  | zero => rfl
  | succ k ih => simp [leEncode, ih]

theorem leDecode_lt (b : Bytes) : leDecode b < 256 ^ b.length := by
  induction b with
  | nil => simp [leDecode]
  | cons x l ih =>
      have hx : x.val < 256 := x.isLt
      have : leDecode (x :: l) = x.val + 256 * leDecode l := rfl
      rw [this, List.length_cons, pow_succ]
      have h256 : 256 ^ l.length * 256 = 256 * 256 ^ l.length := by ring
      rw [h256]
      omega

theorem leDecode_leEncode (k n : Nat) (h : n < 256 ^ k) :
    leDecode (leEncode n k) = n := by
  induction k generalizing n with
  | zero => simp at h; simp [h, leEncode, leDecode]
  | succ k ih =>
      have hdiv : n / 256 < 256 ^ k := by
        rw [Nat.div_lt_iff_lt_mul (by omega)]
        rw [pow_succ] at h
        omega
      have : leDecode (leEncode n (k + 1)) = n % 256 + 256 * leDecode (leEncode (n / 256) k) := rfl
      rw [this, ih _ hdiv]
      omega

/-- The prime order of the Ristretto group (and of its scalar field). -/
def ell : Nat := 2 ^ 252 + 27742317777372353535851937790883648493

/-- Scalar field element (curve25519-dalek `Scalar`). -/
abbrev Scalar := ZMod ell

/-- Ristretto group element, modelled through the isomorphism with the cyclic
group of order `ell`; the basepoint `G` is `1` and scalar multiplication is
field multiplication. -/
abbrev Point := ZMod ell

/-- The Ristretto basepoint `G` (`RISTRETTO_BASEPOINT_POINT`). -/
def Gpt : Point := 1

/-- Abstraction of the external cryptographic libraries used by the program:
point decompression (which can fail), the wide SHA3-512 hash reduced to a
scalar, the second Pedersen generator `H`, and the bulletproofs
`RangeProof::verify_single` entry point.  `verifySingle gens proof comm n`
stands for `proof.verify_single(&BulletproofGens::new(gens, 1),
&PedersenGens::default(), &mut Transcript::new(b""), &comm, n)`. -/
structure Primitives where
  decompress : Bytes → Option Point
  hashToScalar : Bytes → Scalar
  Hpt : Point
  verifySingle : Nat → Bytes → Bytes → Nat → Bool

/-- Rust control flow with possible panics: `panics` models an `unwrap`
failure or an out-of-bounds slice borrow aborting the program. -/
inductive Outcome (α : Type) : Type
  | panics : Outcome α
  | returns : α → Outcome α
deriving DecidableEq

/-- Error enum from src/src/error.rs. -/
inductive CTokenError : Type
  | AlreadyInUse
  | InvalidInstruction
  | NotRentExempt
  | Overflow
  | InvalidProof
  | CommitmentMismatch
  | OpeningInvalid
  | MintMismatch
  | OwnerMismatch
deriving DecidableEq

/-- The host error type (`solana_program::program_error::ProgramError`),
restricted to the variants the embedded code can produce. -/
inductive ProgramError : Type
  | custom : CTokenError → ProgramError
  | invalidAccountData
  | uninitializedAccount
deriving DecidableEq

instance {ε α : Type} [DecidableEq ε] [DecidableEq α] : DecidableEq (Except ε α) := fun a b =>
  match a, b with
  | .ok x, .ok y => decidable_of_iff (x = y) (by simp)
  | .error x, .error y => decidable_of_iff (x = y) (by simp)
  | .ok _, .error _ => isFalse (fun h => Except.noConfusion h)
  | .error _, .ok _ => isFalse (fun h => Except.noConfusion h)

/-- Mint ledger record from src/src/state.rs (32B authority, 8B LE supply,
1B initialized flag; 41 bytes on the wire). -/
structure Mint : Type where
  mint_authority : Bytes
  supply : Nat
  is_initialized : Bool
deriving DecidableEq

/-- Account ledger record from src/src/state.rs (32B mint, 1B initialized
flag, 32B commitment; 65 bytes on the wire). -/
structure Account : Type where
  mint : Bytes
  is_initialized : Bool
  comm : Bytes
deriving DecidableEq

/-- Borsh serialization of a `Mint` (derived field order). -/
def serializeMint (m : Mint) : Bytes :=
  m.mint_authority ++ leEncode m.supply 8 ++ [if m.is_initialized then 1 else 0]

/-- Borsh serialization of an `Account` (derived field order). -/
def serializeAccount (a : Account) : Bytes :=
  a.mint ++ [if a.is_initialized then 1 else 0] ++ a.comm

/-- Borsh `bool` deserialization: a single byte that must be 0 or 1. -/
def decodeBool (b : Byte) : Option Bool :=
  if b = 0 then some false else if b = 1 then some true else none

/-- Body of `Mint::try_from_slice`; only reached behind the exact-length-41
check of `Pack::unpack_unchecked`, so the borsh reads cannot run short. -/
def mintTryFromSlice (b : Bytes) : Option Mint :=
  match decodeBool ((b.drop 40).headD 0) with
  | none => none
  | some init =>
      some { mint_authority := b.take 32
             supply := leDecode ((b.drop 32).take 8)
             is_initialized := init }

/-- Body of `Account::try_from_slice`; only reached behind the exact-length-65
check of `Pack::unpack_unchecked`. -/
def accountTryFromSlice (b : Bytes) : Option Account :=
  match decodeBool ((b.drop 32).headD 0) with
  | none => none
  | some init =>
      some { mint := b.take 32
             is_initialized := init
             comm := (b.drop 33).take 32 }

/-- `Mint::unpack_unchecked`: length must be exactly 41, then borsh decode;
any failure is `ProgramError::InvalidAccountData`. -/
def Mint.unpack_unchecked (b : Bytes) : Except ProgramError Mint :=
  if b.length = 41 then
    match mintTryFromSlice b with
    | some m => .ok m
    | none => .error .invalidAccountData
  else .error .invalidAccountData

/-- `Mint::unpack`: `unpack_unchecked` plus the initialization check. -/
def Mint.unpack (b : Bytes) : Except ProgramError Mint :=
  match Mint.unpack_unchecked b with
  | .ok m => if m.is_initialized then .ok m else .error .uninitializedAccount
  | .error e => .error e

/-- `Account::unpack_unchecked`: length must be exactly 65, then borsh decode. -/
def Account.unpack_unchecked (b : Bytes) : Except ProgramError Account :=
  if b.length = 65 then
    match accountTryFromSlice b with
    | some a => .ok a
    | none => .error .invalidAccountData
  else .error .invalidAccountData

/-- `Mint::pack` writing into a buffer of the same length: `returns none` is
`Err(InvalidAccountData)` (wrong destination length), `panics` is the
`copy_from_slice` length-mismatch panic inside `pack_into_slice`. -/
def Mint.pack (m : Mint) (dst : Bytes) : Outcome (Option Bytes) :=
  if dst.length = 41 then
    if (serializeMint m).length = 41 then .returns (some (serializeMint m)) else .panics
  else .returns none

/-- `Account::pack`, analogous to `Mint.pack` with length 65. -/
def Account.pack (a : Account) (dst : Bytes) : Outcome (Option Bytes) :=
  if dst.length = 65 then
    if (serializeAccount a).length = 65 then .returns (some (serializeAccount a)) else .panics
  else .returns none

/-- The slice of host account state the program reads or writes: address,
lamport balance, data buffer, and the signer bit (`AccountInfo`). -/
structure AccountInfo : Type where
  key : Bytes
  lamports : Nat
  data : Bytes
  is_signer : Bool
deriving DecidableEq

/-- Replace the data buffer of an account: the effect of a `Pack::pack`
write into its buffer. -/
def withData (a : AccountInfo) (b : Bytes) : AccountInfo := { a with data := b }

/-- The rent-exemption oracle `Rent::is_exempt(lamports, data_len)`; the
sysvar parse performed by `Rent::from_account_info` is host machinery and is
abstracted into the oracle itself. -/
abbrev Rent := Nat → Nat → Bool

/-! ## Transaction payloads, src/src/txdata.rs (the revision the processor uses)

`PedersenComm` and `BorshRistretto` are 32-byte compressed encodings and are
embedded as their byte content; `BorshScalar` deserialization enforces
canonicity, so a held scalar is a field element; `BorshRangeProof` is the
unit stub (`pub struct RangeProof;` in src/src/crypto/mod.rs). -/

namespace Txdata

/-- Proof of knowledge `(N, s)`: compressed nonce point and response scalar. -/
structure ProofKnowledge : Type where
  nonce : CToken.Bytes
  scalar : CToken.Scalar
deriving DecidableEq

/-- Payload of the Mint instruction. -/
structure MintData : Type where
  amount : Nat
  out_comm : CToken.Bytes
  range_proof : Unit
  proof_knowledge : ProofKnowledge
deriving DecidableEq

/-- Payload of the Transfer instruction; tuple index 0 is the sender side,
index 1 the receiver side. -/
structure TransferData : Type where
  in_comms : CToken.Bytes × CToken.Bytes
  out_comms : CToken.Bytes × CToken.Bytes
  range_proofs : Unit × Unit
  proofs_knowledge : ProofKnowledge × ProofKnowledge
deriving DecidableEq

/-- Payload of the CloseAccount instruction.  In the source the commitment
and opening fields are commented out; only the cleartext amount remains. -/
structure CloseAccountData : Type where
  amount : Nat
deriving DecidableEq

/-- `MintData::verify_crypto`.  In the source the range-proof block and the
algebraic proof-of-knowledge comparison are both commented out; what remains
executes the Fiat-Shamir hash and two `decompress().unwrap()` calls (which
panic on an invalid encoding) and then returns `Ok(())` unconditionally. -/
def MintData.verify_crypto (P : CToken.Primitives) (d : MintData) :
    CToken.Outcome (Except CToken.CTokenError Unit) :=
  let _c := P.hashToScalar d.proof_knowledge.nonce
  match P.decompress d.proof_knowledge.nonce with
  | none => .panics
  | some _nonce =>
    match P.decompress d.out_comm with
    | none => .panics
    | some _out =>
      let _amount_ristretto := (d.amount : CToken.Scalar) * CToken.Gpt
      .returns (.ok ())

/-- `TransferData::verify_crypto`.  As with mint, the range-proof block and
the final algebraic comparison are commented out in the source; the live code
hashes the two nonces, decompresses the two nonces and the four commitments
(each via `unwrap`, so failure panics), computes the aggregate, and returns
`Ok(())` unconditionally. -/
def TransferData.verify_crypto (P : CToken.Primitives) (td : TransferData) :
    CToken.Outcome (Except CToken.CTokenError Unit) :=
  let sender_c := P.hashToScalar td.proofs_knowledge.1.nonce
  let receiver_c := P.hashToScalar td.proofs_knowledge.2.nonce
  match P.decompress td.proofs_knowledge.1.nonce with
  | none => .panics
  | some _sender_nonce =>
    match P.decompress td.proofs_knowledge.2.nonce with
    | none => .panics
    | some _receiver_nonce =>
      match P.decompress td.out_comms.1, P.decompress td.in_comms.1,
            P.decompress td.out_comms.2, P.decompress td.in_comms.2 with
      | some o0, some i0, some o1, some i1 =>
          let _aggregate := (o0 + i0) * sender_c + (o1 - i1) * receiver_c
          .returns (.ok ())
      | _, _, _, _ => .panics

/-- `CloseAccountData::verify_crypto`: the Pedersen opening check is
commented out in the source; the function returns `Ok(())` for every input. -/
def CloseAccountData.verify_crypto (_d : CloseAccountData) :
    Except CToken.CTokenError Unit :=
  .ok ()

end Txdata

/-! ## The older proof layer, src/src/proof.rs

This revision keeps a single aggregated proof of knowledge per transaction
and real bulletproofs range proofs.  Its `verify_proofs` comparison is
written with inverted sense, and `verify_range_proofs` passes `1`, not 64,
as the bit-length argument of `RangeProof::verify_single`. -/

namespace ProofRs

/-- `ProofKnowledge` from src/src/proof.rs: compressed nonce and scalar. -/
structure ProofKnowledge : Type where
  nonce : CToken.Bytes
  scalar : CToken.Scalar
deriving DecidableEq

/-- A produced commitment paired with its (opaque) range proof bytes. -/
structure PedersenCommRange : Type where
  comm : CToken.Bytes
  range_proof : CToken.Bytes
deriving DecidableEq

/-- List of spent commitments. -/
structure InComms : Type where
  comms : List CToken.Bytes
deriving DecidableEq

/-- List of produced commitments with attached range proofs. -/
structure OutComms : Type where
  comms_proofs : List PedersenCommRange
deriving DecidableEq

/-- Transfer payload of the proof.rs revision. -/
structure TransferData : Type where
  in_comms : InComms
  out_comms : OutComms
  proof_knowledge : ProofKnowledge
deriving DecidableEq

/-- `ProofKnowledge::deserialize`: `array_ref![buf, 0, 64]` panics when the
buffer holds fewer than 64 bytes; a non-canonical scalar is a typed
`InvalidData` error (`returns none`); otherwise the pair is decoded. -/
def ProofKnowledge.deserialize (buf : CToken.Bytes) :
    CToken.Outcome (Option ProofKnowledge) :=
  if buf.length < 64 then .panics
  else
    let nonce := buf.take 32
    let scalarBytes := (buf.drop 32).take 32
    if CToken.leDecode scalarBytes < CToken.ell then
      .returns (some { nonce := nonce, scalar := (CToken.leDecode scalarBytes : CToken.Scalar) })
    else .returns none

/-- `OutComms::verify_range_proofs`: each proof is checked through
`verify_single(&BulletproofGens::new(RANGE_BIT_LENGTH, 1), ..., &comm, 1)`
with `RANGE_BIT_LENGTH = 64` as the generator capacity and the literal `1`
as the bit-length argument; `false` from the oracle is the `ProofError`
propagated by `?`. -/
def OutComms.verify_range_proofs (P : CToken.Primitives) (oc : OutComms) : Bool :=
  oc.comms_proofs.all fun cp => P.verifySingle 64 cp.range_proof cp.comm 1

/-- Decompress a list of encodings, failing (panicking at the caller) if any
single decompression fails. -/
def decompressList (P : CToken.Primitives) (bs : List CToken.Bytes) :
    Option (List CToken.Point) :=
  bs.mapM P.decompress

/-- `TransferData::verify_proofs` from src/src/proof.rs.  The range proofs
are checked first (a failure maps to `InvalidProof` via the `From` impl the
crate comments out in error.rs); the nonce and every commitment are
decompressed with `unwrap` (panic on failure); and the final comparison is
the inverted `if scalar*G == c*aggregate + nonce { Err(InvalidProof) }`. -/
def TransferData.verify_proofs (P : CToken.Primitives) (td : TransferData) :
    CToken.Outcome (Except CToken.CTokenError Unit) :=
  if OutComms.verify_range_proofs P td.out_comms then
    let c := P.hashToScalar td.proof_knowledge.nonce
    match P.decompress td.proof_knowledge.nonce with
    | none => .panics
    | some nonce =>
      match decompressList P td.in_comms.comms with
      | none => .panics
      | some ins =>
        match decompressList P (td.out_comms.comms_proofs.map (·.comm)) with
        | none => .panics
        | some outs =>
          let aggregate := outs.sum - ins.sum
          if td.proof_knowledge.scalar * CToken.Gpt = c * aggregate + nonce then
            .returns (.error .InvalidProof)
          else
            .returns (.ok ())
  else .returns (.error .InvalidProof)

end ProofRs

/-! ## The state handler, src/src/processor.rs

Each handler returns the Rust `ProgramResult` together with the final state
of every account it can write (accounts it only reads are never mutated by
the source and are left out of the returned tuple).  Writes are threaded in
source order so that an error observed after a write would surface here as a
changed account in an error result. -/

namespace Processor

/-- `Processor::process_initialize_mint`.  The result pairs the
`ProgramResult` with the final mint account. -/
def process_initialize_mint (rent : Rent) (mint_info : AccountInfo)
    (mint_authority : Bytes) :
    Outcome (Except ProgramError Unit × AccountInfo) :=
  match Mint.unpack_unchecked mint_info.data with
  | .error e => .returns (.error e, mint_info)
  | .ok mint =>
    if mint.is_initialized then
      .returns (.error (.custom .AlreadyInUse), mint_info)
    else if !(rent mint_info.lamports mint_info.data.length) then
      .returns (.error (.custom .NotRentExempt), mint_info)
    else
      let mint' := { mint with mint_authority := mint_authority, is_initialized := true }
      match Mint.pack mint' mint_info.data with
      | .panics => .panics
      | .returns none => .returns (.error .invalidAccountData, mint_info)
      | .returns (some d') => .returns (.ok (), { mint_info with data := d' })

/-- `Processor::process_mint`.  The result pairs the `ProgramResult` with the
final `(mint, dest_account)` pair; the expected-authority account is read
only through its key and is never written. -/
def process_mint (P : Primitives) (rent : Rent)
    (mint_info dest_account_info expected_authority : AccountInfo)
    (mint_data : Txdata.MintData) :
    Outcome (Except ProgramError Unit × AccountInfo × AccountInfo) :=
  match Account.unpack_unchecked dest_account_info.data with
  | .error e => .returns (.error e, mint_info, dest_account_info)
  | .ok dest_account =>
    if dest_account.is_initialized then
      .returns (.error (.custom .AlreadyInUse), mint_info, dest_account_info)
    else if !(rent dest_account_info.lamports dest_account_info.data.length) then
      .returns (.error (.custom .NotRentExempt), mint_info, dest_account_info)
    else
      match Txdata.MintData.verify_crypto P mint_data with
      | .panics => .panics
      | .returns (.error e) =>
          .returns (.error (.custom e), mint_info, dest_account_info)
      | .returns (.ok ()) =>
        match Mint.unpack mint_info.data with
        | .error e => .returns (.error e, mint_info, dest_account_info)
        | .ok mint =>
          if expected_authority.key ≠ mint.mint_authority then
            .returns (.error (.custom .OwnerMismatch), mint_info, dest_account_info)
          else
            let dest' := { dest_account with
                             mint := mint_info.key
                             is_initialized := true
                             comm := mint_data.out_comm }
            if mint.supply + mint_data.amount < 2 ^ 64 then
              let mint' := { mint with supply := mint.supply + mint_data.amount }
              match Account.pack dest' dest_account_info.data with
              | .panics => .panics
              | .returns none =>
                  .returns (.error .invalidAccountData, mint_info, dest_account_info)
              | .returns (some dd) =>
                match Mint.pack mint' mint_info.data with
                | .panics => .panics
                | .returns none =>
                    .returns (.error .invalidAccountData,
                              mint_info, { dest_account_info with data := dd })
                | .returns (some md) =>
                    .returns (.ok (),
                              { mint_info with data := md },
                              { dest_account_info with data := dd })
            else
              .returns (.error (.custom .Overflow), mint_info, dest_account_info)

/-- `Processor::process_transfer`.  The result pairs the `ProgramResult`
with the final `(sender_source, receiver_source, sender_dest, receiver_dest)`
accounts; the mint account is read only through its key.  Note the source
faithfully reproduced here checks the rent exemption of the sender
destination twice and never checks the receiver destination. -/
def process_transfer (P : Primitives) (rent : Rent)
    (mint_info sender_source_info receiver_source_info
     sender_dest_info receiver_dest_info : AccountInfo)
    (transfer_data : Txdata.TransferData) :
    Outcome (Except ProgramError Unit ×
             AccountInfo × AccountInfo × AccountInfo × AccountInfo) :=
  let orig := (sender_source_info, receiver_source_info,
               sender_dest_info, receiver_dest_info)
  match Account.unpack_unchecked sender_source_info.data with
  | .error e => .returns (.error e, orig)
  | .ok sender_source =>
    match Account.unpack_unchecked receiver_source_info.data with
    | .error e => .returns (.error e, orig)
    | .ok receiver_source =>
      if (sender_source.comm, receiver_source.comm) ≠ transfer_data.in_comms then
        .returns (.error (.custom .CommitmentMismatch), orig)
      else if sender_source.mint ≠ mint_info.key ∨
              receiver_source.mint ≠ mint_info.key then
        .returns (.error (.custom .MintMismatch), orig)
      else
        match Account.unpack_unchecked sender_dest_info.data with
        | .error e => .returns (.error e, orig)
        | .ok sender_dest =>
          match Account.unpack_unchecked receiver_dest_info.data with
          | .error e => .returns (.error e, orig)
          | .ok receiver_dest =>
            if sender_dest.is_initialized ∨ receiver_dest.is_initialized then
              .returns (.error (.custom .AlreadyInUse), orig)
            else if !(rent sender_dest_info.lamports sender_dest_info.data.length) ∨
                    !(rent sender_dest_info.lamports sender_dest_info.data.length) then
              .returns (.error (.custom .NotRentExempt), orig)
            else
              match Txdata.TransferData.verify_crypto P transfer_data with
              | .panics => .panics
              | .returns (.error e) => .returns (.error (.custom e), orig)
              | .returns (.ok ()) =>
                let sender_source_info' := { sender_source_info with lamports := 0 }
                let receiver_source_info' := { receiver_source_info with lamports := 0 }
                let sender_dest' := { sender_dest with
                                        mint := mint_info.key
                                        is_initialized := true
                                        comm := transfer_data.out_comms.1 }
                match Account.pack sender_dest' sender_dest_info.data with
                | .panics => .panics
                | .returns none =>
                    .returns (.error .invalidAccountData,
                              sender_source_info', receiver_source_info',
                              sender_dest_info, receiver_dest_info)
                | .returns (some sd) =>
                  let receiver_dest' := { receiver_dest with
                                            mint := mint_info.key
                                            is_initialized := true
                                            comm := transfer_data.out_comms.2 }
                  match Account.pack receiver_dest' receiver_dest_info.data with
                  | .panics => .panics
                  | .returns none =>
                      .returns (.error .invalidAccountData,
                                sender_source_info', receiver_source_info',
                                { sender_dest_info with data := sd }, receiver_dest_info)
                  | .returns (some rd) =>
                      .returns (.ok (),
                                sender_source_info', receiver_source_info',
                                { sender_dest_info with data := sd },
                                { receiver_dest_info with data := rd })

/-- `Processor::process_close_account`: the body is a bare `Ok(())`; nothing
is verified and no account is touched. -/
def process_close_account (source_info dest_info : AccountInfo)
    (_close_account_data : Txdata.CloseAccountData) :
    Except ProgramError Unit × AccountInfo × AccountInfo :=
  (.ok (), source_info, dest_info)

end Processor

/-! ## Auxiliary lemmas about the wire format -/

theorem Mint.unpack_unchecked_len41 {b : Bytes} {m : Mint}
    (h : Mint.unpack_unchecked b = .ok m) : b.length = 41 := by
  unfold Mint.unpack_unchecked at h
  split at h
  · assumption
  · exact absurd h (by simp)

theorem Mint.unpack_length {b : Bytes} {m : Mint}
    (h : Mint.unpack b = .ok m) : b.length = 41 := by
  unfold Mint.unpack at h
  split at h
  case h_1 m' hm' =>
    exact Mint.unpack_unchecked_len41 hm'
  case h_2 => exact absurd h (by simp)

theorem Mint.unpack_is_initialized {b : Bytes} {m : Mint}
    (h : Mint.unpack b = .ok m) :
    Mint.unpack_unchecked b = .ok m ∧ m.is_initialized = true := by
  unfold Mint.unpack at h
  split at h
  case h_1 m' hm' =>
    split at h
    case isTrue hinit =>
      cases h
      exact ⟨hm', hinit⟩
    case isFalse => exact absurd h (by simp)
  case h_2 => exact absurd h (by simp)

theorem Account.unpack_unchecked_len65 {b : Bytes} {a : Account}
    (h : Account.unpack_unchecked b = .ok a) : b.length = 65 := by
  unfold Account.unpack_unchecked at h
  split at h
  · assumption
  · exact absurd h (by simp)

theorem Mint.unpack_unchecked_wf {b : Bytes} {m : Mint}
    (h : Mint.unpack_unchecked b = .ok m) :
    m.mint_authority.length = 32 ∧ m.supply < 2 ^ 64 := by
  have hlen := Mint.unpack_unchecked_len41 h
  unfold Mint.unpack_unchecked at h
  rw [if_pos hlen] at h
  split at h
  case h_2 => exact absurd h (by simp)
  case h_1 m' hm' =>
    have hmm : m' = m := by cases h; rfl
    rw [hmm] at hm'
    unfold mintTryFromSlice at hm'
    split at hm'
    case h_1 => exact absurd hm' (by simp)
    case h_2 init hinit =>
      have hm : m = { mint_authority := b.take 32
                      supply := leDecode ((b.drop 32).take 8)
                      is_initialized := init } := by
        cases hm'; rfl
      constructor
      · rw [hm]
        simp [List.length_take, hlen]
      · rw [hm]
        have h8 : ((b.drop 32).take 8).length = 8 := by
          simp [List.length_take, List.length_drop, hlen]
        have := leDecode_lt ((b.drop 32).take 8)
        rw [h8] at this
        have h2 : (256 : Nat) ^ 8 = 2 ^ 64 := by norm_num
        simpa [h2] using this

theorem serializeMint_length {m : Mint} (h : m.mint_authority.length = 32) :
    (serializeMint m).length = 41 := by
  simp [serializeMint, h, leEncode_length]

theorem serializeAccount_length {a : Account}
    (h1 : a.mint.length = 32) (h2 : a.comm.length = 32) :
    (serializeAccount a).length = 65 := by
  simp [serializeAccount, h1, h2]

theorem mintTryFromSlice_serializeMint {m : Mint}
    (hauth : m.mint_authority.length = 32) (hsup : m.supply < 2 ^ 64) :
    mintTryFromSlice (serializeMint m) = some m := by
  obtain ⟨authority, supply, init⟩ := m
  have hauth' : authority.length = 32 := hauth
  have hsup'' : supply < 2 ^ 64 := hsup
  have hE : (leEncode supply 8).length = 8 := leEncode_length _ _
  have hAE : (authority ++ leEncode supply 8).length = 40 := by
    simp [hauth', hE]
  have hser : serializeMint ⟨authority, supply, init⟩ =
      authority ++ leEncode supply 8 ++ [if init then 1 else 0] := rfl
  have hdrop40 : (serializeMint ⟨authority, supply, init⟩).drop 40 =
      [if init then 1 else 0] := by
    rw [hser]
    exact List.drop_left' hAE
  have htake32 : (serializeMint ⟨authority, supply, init⟩).take 32 = authority := by
    rw [hser, List.append_assoc]
    exact List.take_left' hauth'
  have hdrop32 : (serializeMint ⟨authority, supply, init⟩).drop 32 =
      leEncode supply 8 ++ [if init then 1 else 0] := by
    rw [hser, List.append_assoc]
    exact List.drop_left' hauth'
  have htake8 : ((serializeMint ⟨authority, supply, init⟩).drop 32).take 8 =
      leEncode supply 8 := by
    rw [hdrop32]
    exact List.take_left' hE
  have hsup' : supply < 256 ^ 8 := by
    have h2 : (256 : Nat) ^ 8 = 2 ^ 64 := by norm_num
    omega
  unfold mintTryFromSlice
  rw [hdrop40, htake32, htake8, leDecode_leEncode 8 supply hsup']
  cases init <;> simp [decodeBool]

theorem Mint.unpack_unchecked_serializeMint {m : Mint}
    (hauth : m.mint_authority.length = 32) (hsup : m.supply < 2 ^ 64) :
    Mint.unpack_unchecked (serializeMint m) = .ok m := by
  unfold Mint.unpack_unchecked
  rw [if_pos (serializeMint_length hauth), mintTryFromSlice_serializeMint hauth hsup]

theorem Mint.pack_ok41 {m : Mint} {dst : Bytes} (h1 : dst.length = 41)
    (h2 : (serializeMint m).length = 41) :
    Mint.pack m dst = .returns (some (serializeMint m)) := by
  unfold Mint.pack
  rw [if_pos h1, if_pos h2]

theorem Account.pack_ok65 {a : Account} {dst : Bytes} (h1 : dst.length = 65)
    (h2 : (serializeAccount a).length = 65) :
    Account.pack a dst = .returns (some (serializeAccount a)) := by
  unfold Account.pack
  rw [if_pos h1, if_pos h2]

/-! ## Specification-side verifier

The claims compare the code against the verifier the specification
describes; this predicate follows the words of the spec, not the source. -/

/-- Modelled from the spec (section 4.2): the Schnorr verifier recomputes
`c = HashToScalar(encode(N))` and accepts exactly when `s·G = c·L + N`,
where `L` is the aggregate of output commitments minus input commitments. -/
def specSchnorrAccepts (P : Primitives) (nonceEnc : Bytes) (noncePt : Point)
    (s : Scalar) (L : Point) : Prop :=
  s * Gpt = P.hashToScalar nonceEnc * L + noncePt

instance (P : Primitives) (nonceEnc : Bytes) (noncePt : Point)
    (s : Scalar) (L : Point) : Decidable (specSchnorrAccepts P nonceEnc noncePt s L) := by
  unfold specSchnorrAccepts
  infer_instance

/-! ## Concrete fixtures used by witnesses and counterexamples -/

/-- A run of `n` zero bytes. -/
def zeroBytes (n : Nat) : Bytes := List.replicate n 0

/-- Toy instantiation of the external libraries: every encoding decompresses
(to the identity), the hash is constantly zero, and every range proof
verifies.  Used to witness non-vacuity of the universally quantified
theorems. -/
def toyP : Primitives :=
  { decompress := fun _ => some 0
    hashToScalar := fun _ => 0
    Hpt := 0
    verifySingle := fun _ _ _ _ => true }

/-- Toy instantiation on which every range proof is invalid. -/
def toyPNoRange : Primitives :=
  { toyP with verifySingle := fun _ _ _ _ => false }

/-- Toy instantiation on which a range proof verifies exactly when the
bit-length argument is 64 (an honest 64-bit proof). -/
def toyP64 : Primitives :=
  { toyP with verifySingle := fun _ _ _ n => n == 64 }

/-- Toy instantiation on which every decompression fails, standing for
byte strings that are not valid Ristretto encodings. -/
def toyPBad : Primitives :=
  { toyP with decompress := fun _ => none }

/-- A rent oracle under which every account is exempt. -/
def rentAll : Rent := fun _ _ => true

/-- A rent oracle demanding at least 100 lamports. -/
def rent100 : Rent := fun lamports _ => decide (100 ≤ lamports)

/-- An honest all-zero proof of knowledge (nonce encoding 0, response 0). -/
def pokZero : Txdata.ProofKnowledge := { nonce := zeroBytes 32, scalar := 0 }

/-- The same proof of knowledge with the response scalar replaced by a
different value, as an adversary would after tampering. -/
def pokTampered : Txdata.ProofKnowledge := { nonce := zeroBytes 32, scalar := 1 }

/-- A transfer payload whose sender proof of knowledge has been tampered
with: its response scalar no longer satisfies the Schnorr equation. -/
def tdTampered : Txdata.TransferData :=
  { in_comms := (zeroBytes 32, zeroBytes 32)
    out_comms := (zeroBytes 32, zeroBytes 32)
    range_proofs := ((), ())
    proofs_knowledge := (pokTampered, pokZero) }

/-- A transfer payload of the proof.rs revision whose single aggregated
proof of knowledge satisfies the Schnorr equation under `toyP`. -/
def tdOldValid : ProofRs.TransferData :=
  { in_comms := { comms := [zeroBytes 32] }
    out_comms := { comms_proofs := [{ comm := zeroBytes 32, range_proof := zeroBytes 704 }] }
    proof_knowledge := { nonce := zeroBytes 32, scalar := 0 } }

/-- A mint payload with a zero commitment and zero proof of knowledge. -/
def mdZero : Txdata.MintData :=
  { amount := 57, out_comm := zeroBytes 32, range_proof := ()
    proof_knowledge := pokZero }

/-! ## Claim theorems -/

/-- C1: the specification requires the proof-of-knowledge verifier to accept
exactly when the Schnorr equation holds and to reject a tampered response
scalar with `InvalidProof`.  The code diverges on both sides: the operative
`TransferData::verify_crypto` (src/src/txdata.rs) returns `Ok` for every
payload whose points decompress, with the algebraic comparison commented
out, and the older `TransferData::verify_proofs` (src/src/proof.rs) returns
`Err(InvalidProof)` precisely when the Schnorr equation holds, the
comparison being written with inverted sense. -/
theorem transfer_pok_check_divergence :
    (∀ (P : Primitives) (td : Txdata.TransferData) (ns nr o0 i0 o1 i1 : Point),
       P.decompress td.proofs_knowledge.1.nonce = some ns →
       P.decompress td.proofs_knowledge.2.nonce = some nr →
       P.decompress td.out_comms.1 = some o0 →
       P.decompress td.in_comms.1 = some i0 →
       P.decompress td.out_comms.2 = some o1 →
       P.decompress td.in_comms.2 = some i1 →
       Txdata.TransferData.verify_crypto P td = .returns (.ok ())) ∧
    (∀ (P : Primitives) (td : ProofRs.TransferData) (nonce : Point)
       (ins outs : List Point),
       ProofRs.OutComms.verify_range_proofs P td.out_comms = true →
       P.decompress td.proof_knowledge.nonce = some nonce →
       ProofRs.decompressList P td.in_comms.comms = some ins →
       ProofRs.decompressList P (td.out_comms.comms_proofs.map (·.comm)) = some outs →
       specSchnorrAccepts P td.proof_knowledge.nonce nonce
         td.proof_knowledge.scalar (outs.sum - ins.sum) →
       ProofRs.TransferData.verify_proofs P td = .returns (.error .InvalidProof)) := by
  constructor
  · intro P td ns nr o0 i0 o1 i1 h1 h2 h3 h4 h5 h6
    simp only [Txdata.TransferData.verify_crypto, h1, h2, h3, h4, h5, h6]
  · intro P td nonce ins outs hrange hnonce hins houts hspec
    simp only [ProofRs.TransferData.verify_proofs, hrange, hnonce, hins, houts,
               if_true]
    exact if_pos hspec

/-- C1 witness: under the toy primitives a transfer whose sender response
scalar was replaced by a different value fails the specification equation
yet is accepted by the code, while the proof.rs revision rejects a payload
whose proof satisfies the equation. -/
theorem transfer_pok_check_divergence_witness :
    Txdata.TransferData.verify_crypto toyP tdTampered = .returns (.ok ()) ∧
    ¬ specSchnorrAccepts toyP (zeroBytes 32) 0 1 0 ∧
    ProofRs.TransferData.verify_proofs toyP tdOldValid = .returns (.error .InvalidProof) :=
  ⟨transfer_pok_check_divergence.1 toyP tdTampered 0 0 0 0 0 0
      (by decide) (by decide) (by decide) (by decide) (by decide) (by decide),
   by decide,
   transfer_pok_check_divergence.2 toyP tdOldValid 0 [0] [0]
      (by decide) (by decide) (by decide) (by decide) (by decide)⟩

/-- C2: the specification demands that a `MintData` is only accepted after
its range proof verified at bit length 64.  The operative
`MintData::verify_crypto` (src/src/txdata.rs) skips range-proof
verification entirely — it accepts any payload whose points decompress, for
every instantiation of the external libraries, including one on which every
range proof is invalid — and the older `OutComms::verify_range_proofs`
(src/src/proof.rs) calls `RangeProof::verify_single` with bit-length
argument `1`, not 64, so a proof that verifies exactly at 64 bits is
rejected there. -/
theorem mint_range_proof_divergence :
    (∀ (P : Primitives) (d : Txdata.MintData) (n o : Point),
       P.decompress d.proof_knowledge.nonce = some n →
       P.decompress d.out_comm = some o →
       Txdata.MintData.verify_crypto P d = .returns (.ok ())) ∧
    ProofRs.OutComms.verify_range_proofs toyP64
      { comms_proofs := [{ comm := zeroBytes 32, range_proof := zeroBytes 704 }] } = false := by
  constructor
  · intro P d n o h1 h2
    simp only [Txdata.MintData.verify_crypto, h1, h2]
  · decide

/-- C2 witness: even under primitives on which every range proof is invalid,
the operative mint verifier accepts the payload. -/
theorem mint_range_proof_divergence_witness :
    Txdata.MintData.verify_crypto toyPNoRange mdZero = .returns (.ok ()) :=
  mint_range_proof_divergence.1 toyPNoRange mdZero 0 0 (by decide) (by decide)

/-- C3: the specification accepts a `CloseAccount` exactly when the
commitment opens to the claimed amount and rejects a mismatched opening with
`OpeningInvalid`.  In the source the commitment and opening fields of
`CloseAccountData` are commented out and `verify_crypto` returns `Ok(())`
for every payload, so every close request — including one with a mismatched
opening — is accepted and no account is touched. -/
theorem close_account_accepts_everything :
    ∀ (d : Txdata.CloseAccountData) (src dst : AccountInfo),
      Txdata.CloseAccountData.verify_crypto d = .ok () ∧
      Processor.process_close_account src dst d = (.ok (), src, dst) :=
  fun _ _ _ => ⟨rfl, rfl⟩

/-- C5: the specification requires decode and decompression failures on
untrusted input to surface as typed errors, never as panics.  The code
panics on both cited paths: `verify_crypto` unwraps `decompress()`, so a
mint payload whose nonce encoding is not a valid Ristretto point aborts
instead of returning `InvalidProof`, and `ProofKnowledge::deserialize`
borrows `array_ref![buf, 0, 64]`, which aborts whenever fewer than 64 bytes
are supplied. -/
theorem decode_failure_panics :
    (∀ (P : Primitives) (d : Txdata.MintData),
       P.decompress d.proof_knowledge.nonce = none →
       Txdata.MintData.verify_crypto P d = .panics) ∧
    (∀ buf : Bytes, buf.length < 64 →
       ProofRs.ProofKnowledge.deserialize buf = .panics) := by
  constructor
  · intro P d h
    simp only [Txdata.MintData.verify_crypto, h]
  · intro buf h
    simp only [ProofRs.ProofKnowledge.deserialize, if_pos h]

/-- C5 witness: a concrete mint payload whose nonce fails decompression
panics inside verification, and a 63-byte buffer panics inside
deserialization. -/
theorem decode_failure_panics_witness :
    Txdata.MintData.verify_crypto toyPBad mdZero = .panics ∧
    ProofRs.ProofKnowledge.deserialize (zeroBytes 63) = .panics :=
  ⟨decode_failure_panics.1 toyPBad mdZero (by decide),
   decode_failure_panics.2 (zeroBytes 63) (by decide)⟩

/-- Mint address used by the transfer fixtures. -/
def mintKey : Bytes := List.replicate 32 9

/-- Stored commitment of the first (sender) fixture source account. -/
def commA : Bytes := List.replicate 32 2

/-- Stored commitment of the second (receiver) fixture source account. -/
def commB : Bytes := List.replicate 32 3

/-- Fixture: initialized sender source account bound to `mintKey`. -/
def srcA : AccountInfo :=
  { key := List.replicate 32 10, lamports := 100
    data := serializeAccount { mint := mintKey, is_initialized := true, comm := commA }
    is_signer := false }

/-- Fixture: initialized receiver source account bound to `mintKey`. -/
def srcB : AccountInfo :=
  { key := List.replicate 32 11, lamports := 100
    data := serializeAccount { mint := mintKey, is_initialized := true, comm := commB }
    is_signer := false }

/-- Fixture: fresh (zeroed) sender destination account, rent-exempt under
`rent100`. -/
def dstA : AccountInfo :=
  { key := List.replicate 32 12, lamports := 100, data := zeroBytes 65, is_signer := false }

/-- Fixture: fresh (zeroed) receiver destination account that is NOT
rent-exempt under `rent100` (zero lamports). -/
def dstB : AccountInfo :=
  { key := List.replicate 32 13, lamports := 0, data := zeroBytes 65, is_signer := false }

/-- Fixture: the mint account for the transfer fixtures (its data is never
parsed by `process_transfer`). -/
def mintAcc : AccountInfo :=
  { key := mintKey, lamports := 100, data := zeroBytes 41, is_signer := false }

/-- Transfer payload matching the stored commitments of `srcA` and `srcB`. -/
def tdMatching : Txdata.TransferData :=
  { in_comms := (commA, commB)
    out_comms := (zeroBytes 32, zeroBytes 32)
    range_proofs := ((), ())
    proofs_knowledge := (pokZero, pokZero) }

/-- Data of a destination account freshly initialized by the fixture
transfer: bound to `mintKey` with the zero output commitment. -/
def outAccData : Bytes :=
  serializeAccount { mint := mintKey, is_initialized := true, comm := zeroBytes 32 }

/-- C4: the specification requires a Transfer to fail with `NotRentExempt`
whenever either destination account is not rent-exempt.  The source checks
the sender destination twice and never the receiver destination
(src/src/processor.rs lines 147-151), so this concrete transfer whose
receiver destination is not rent-exempt is accepted, both destinations are
initialized, and both sources are drained. -/
theorem transfer_receiver_rent_unchecked :
    rent100 dstB.lamports dstB.data.length = false ∧
    Processor.process_transfer toyP rent100 mintAcc srcA srcB dstA dstB tdMatching =
      .returns (.ok (),
        { srcA with lamports := 0 },
        { srcB with lamports := 0 },
        { dstA with data := outAccData },
        { dstB with data := outAccData }) := by
  constructor
  · decide
  · decide

/-- C6: when a Mint instruction passes every check before the supply
update, the outcome is determined by the `u64` checked addition: if
`supply + amount` fits, processing succeeds and the persisted mint record
carries exactly the sum while the destination is initialized with the
supplied commitment; if it overflows, processing fails with `Overflow` and
both writable accounts are returned unchanged. -/
theorem mint_supply_checked_add :
    ∀ (P : Primitives) (rent : Rent) (mint_info dest_info authority_info : AccountInfo)
      (d : Txdata.MintData) (dest : Account) (mint : Mint),
      Account.unpack_unchecked dest_info.data = .ok dest →
      dest.is_initialized = false →
      rent dest_info.lamports dest_info.data.length = true →
      Txdata.MintData.verify_crypto P d = .returns (.ok ()) →
      Mint.unpack mint_info.data = .ok mint →
      authority_info.key = mint.mint_authority →
      mint_info.key.length = 32 →
      d.out_comm.length = 32 →
      ((mint.supply + d.amount < 2 ^ 64 →
          Processor.process_mint P rent mint_info dest_info authority_info d =
            .returns (.ok (),
              { mint_info with data :=
                  serializeMint { mint with supply := mint.supply + d.amount } },
              { dest_info with data :=
                  serializeAccount ⟨mint_info.key, true, d.out_comm⟩ })) ∧
       (2 ^ 64 ≤ mint.supply + d.amount →
          Processor.process_mint P rent mint_info dest_info authority_info d =
            .returns (.error (.custom .Overflow), mint_info, dest_info))) := by
  intro P rent mint_info dest_info authority_info d dest mint
  intro hdest hinit hrent hver hmint hkey hmik hcomm
  have hdlen : dest_info.data.length = 65 := Account.unpack_unchecked_len65 hdest
  have hmlen : mint_info.data.length = 41 := Mint.unpack_length hmint
  have hwf := Mint.unpack_unchecked_wf (Mint.unpack_is_initialized hmint).1
  have hpackA :
      Account.pack ⟨mint_info.key, true, d.out_comm⟩ dest_info.data =
        .returns (some (serializeAccount ⟨mint_info.key, true, d.out_comm⟩)) :=
    Account.pack_ok65 hdlen (serializeAccount_length hmik hcomm)
  constructor
  · intro hlt
    have hpackM :
        Mint.pack { mint with supply := mint.supply + d.amount } mint_info.data =
          .returns (some (serializeMint { mint with supply := mint.supply + d.amount })) :=
      Mint.pack_ok41 hmlen (serializeMint_length hwf.1)
    have h64 : (2 : Nat) ^ 64 = 18446744073709551616 := by norm_num
    simp only [Processor.process_mint, hdest, hver, hmint]
    simp [hinit, hrent, hkey, hlt, hpackA, hpackM]
    exact h64 ▸ hlt
  · intro hge
    have hnlt : ¬ (mint.supply + d.amount < 2 ^ 64) := by omega
    have h64 : (2 : Nat) ^ 64 = 18446744073709551616 := by norm_num
    simp only [Processor.process_mint, hdest, hver, hmint]
    simp [hinit, hrent, hkey, hnlt]
    intro habs
    exact absurd habs (h64 ▸ hnlt)

/-- Authority key of the mint fixtures. -/
def authKey : Bytes := List.replicate 32 7

/-- Fixture: an initialized mint account with supply 0 (the state right
after `InitializeMint` on a zeroed account). -/
def mintFresh : AccountInfo :=
  { key := mintKey, lamports := 1000
    data := serializeMint { mint_authority := authKey, supply := 0, is_initialized := true }
    is_signer := false }

/-- Fixture: first fresh destination account for minting. -/
def destFresh1 : AccountInfo :=
  { key := List.replicate 32 4, lamports := 1000, data := zeroBytes 65, is_signer := false }

/-- Fixture: second fresh destination account for minting. -/
def destFresh2 : AccountInfo :=
  { key := List.replicate 32 5, lamports := 1000, data := zeroBytes 65, is_signer := false }

/-- Fixture: the authority account presented to `process_mint`. -/
def authInfo : AccountInfo :=
  { key := authKey, lamports := 0, data := [], is_signer := true }

/-- A mint payload for 43 tokens with the zero commitment. -/
def md43 : Txdata.MintData :=
  { amount := 43, out_comm := zeroBytes 32, range_proof := ()
    proof_knowledge := pokZero }

/-- C6 witness: minting 57 and then 43 against a fresh mint persists supply
57 and then 100, each step obtained from the checked-addition theorem. -/
theorem mint_supply_checked_add_witness :
    Processor.process_mint toyP rentAll mintFresh destFresh1 authInfo mdZero =
      .returns (.ok (),
        { mintFresh with data :=
            serializeMint { mint_authority := authKey, supply := 57, is_initialized := true } },
        { destFresh1 with data :=
            serializeAccount { mint := mintKey, is_initialized := true, comm := zeroBytes 32 } }) ∧
    Processor.process_mint toyP rentAll
        { mintFresh with data :=
            serializeMint { mint_authority := authKey, supply := 57, is_initialized := true } }
        destFresh2 authInfo md43 =
      .returns (.ok (),
        { mintFresh with data :=
            serializeMint { mint_authority := authKey, supply := 100, is_initialized := true } },
        { destFresh2 with data :=
            serializeAccount { mint := mintKey, is_initialized := true, comm := zeroBytes 32 } }) :=
  ⟨(mint_supply_checked_add toyP rentAll mintFresh destFresh1 authInfo mdZero
      { mint := zeroBytes 32, is_initialized := false, comm := zeroBytes 32 }
      { mint_authority := authKey, supply := 0, is_initialized := true }
      (by decide) (by decide) (by decide) (by decide) (by decide) (by decide)
      (by decide) (by decide)).1 (by decide),
   (mint_supply_checked_add toyP rentAll
      { mintFresh with data :=
          serializeMint { mint_authority := authKey, supply := 57, is_initialized := true } }
      destFresh2 authInfo md43
      { mint := zeroBytes 32, is_initialized := false, comm := zeroBytes 32 }
      { mint_authority := authKey, supply := 57, is_initialized := true }
      (by decide) (by decide) (by decide) (by decide) (by decide) (by decide)
      (by decide) (by decide)).1 (by decide)⟩

theorem Mint.pack_none_impossible41 {m : Mint} {dst : Bytes} (h : dst.length = 41) :
    Mint.pack m dst ≠ .returns none := by
  unfold Mint.pack
  rw [if_pos h]
  split <;> simp

theorem Account.pack_none_impossible65 {a : Account} {dst : Bytes} (h : dst.length = 65) :
    Account.pack a dst ≠ .returns none := by
  unfold Account.pack
  rw [if_pos h]
  split <;> simp

theorem process_initialize_mint_error_unchanged :
    ∀ (rent : Rent) (mi : AccountInfo) (auth : Bytes) (e : ProgramError)
      (mi' : AccountInfo),
      Processor.process_initialize_mint rent mi auth = .returns (.error e, mi') →
      mi' = mi := by
  intro rent mi auth e mi' h
  simp only [Processor.process_initialize_mint] at h
  split at h
  case h_1 => simp_all
  case h_2 mint hmint =>
  split at h
  case isTrue => simp_all
  case isFalse =>
  split at h
  case isTrue => simp_all
  case isFalse =>
  split at h
  case h_1 => simp_all
  case h_2 hpack =>
    exact absurd hpack (Mint.pack_none_impossible41 (Mint.unpack_unchecked_len41 hmint))
  case h_3 => simp_all

theorem process_mint_error_unchanged :
    ∀ (P : Primitives) (rent : Rent) (mi di ai : AccountInfo)
      (d : Txdata.MintData) (e : ProgramError) (mi' di' : AccountInfo),
      Processor.process_mint P rent mi di ai d = .returns (.error e, mi', di') →
      mi' = mi ∧ di' = di := by
  intro P rent mi di ai d e mi' di' h
  simp only [Processor.process_mint] at h
  split at h
  case h_1 => simp_all
  case h_2 dest hdest =>
  split at h
  case isTrue => simp_all
  case isFalse =>
  split at h
  case isTrue => simp_all
  case isFalse =>
  split at h
  case h_1 => simp_all
  case h_2 => simp_all
  case h_3 =>
  split at h
  case h_1 => simp_all
  case h_2 mint hmint =>
  split at h
  case isTrue => simp_all
  case isFalse =>
  split at h
  case isFalse => simp_all
  case isTrue =>
  split at h
  case h_1 => simp_all
  case h_2 => simp_all
  case h_3 =>
  split at h
  case h_1 => simp_all
  case h_2 hpackm =>
    exact absurd hpackm (Mint.pack_none_impossible41 (Mint.unpack_length hmint))
  case h_3 => simp_all

theorem process_transfer_error_unchanged :
    ∀ (P : Primitives) (rent : Rent) (mi s0 s1 d0 d1 : AccountInfo)
      (td : Txdata.TransferData) (e : ProgramError) (s0' s1' d0' d1' : AccountInfo),
      Processor.process_transfer P rent mi s0 s1 d0 d1 td =
        .returns (.error e, s0', s1', d0', d1') →
      s0' = s0 ∧ s1' = s1 ∧ d0' = d0 ∧ d1' = d1 := by
  intro P rent mi s0 s1 d0 d1 td e s0' s1' d0' d1' h
  simp only [Processor.process_transfer] at h
  split at h
  case h_1 => simp_all
  case h_2 ss hss =>
  split at h
  case h_1 => simp_all
  case h_2 rs hrs =>
  split at h
  case isTrue => simp_all
  case isFalse =>
  split at h
  case isTrue => simp_all
  case isFalse =>
  split at h
  case h_1 => simp_all
  case h_2 sd hsd =>
  split at h
  case h_1 => simp_all
  case h_2 rd hrd =>
  split at h
  case isTrue => simp_all
  case isFalse =>
  split at h
  case isTrue => simp_all
  case isFalse =>
  split at h
  case h_1 => simp_all
  case h_2 => simp_all
  case h_3 =>
  split at h
  case h_1 => simp_all
  case h_2 hpacks =>
    exact absurd hpacks (Account.pack_none_impossible65 (Account.unpack_unchecked_len65 hsd))
  case h_3 sdd hsdd =>
  split at h
  case h_1 => simp_all
  case h_2 hpackr =>
    exact absurd hpackr (Account.pack_none_impossible65 (Account.unpack_unchecked_len65 hrd))
  case h_3 => simp_all

/-- C7: every handler verifies before it writes.  Whenever an instruction
returns an error, each writable account comes back with its data bytes and
lamport balance identical to the pre-instruction state (accounts passed
read-only are never written by the source at all), and `CloseAccount`
returns its accounts untouched unconditionally. -/
theorem rejected_instruction_leaves_accounts :
    (∀ (rent : Rent) (mi : AccountInfo) (auth : Bytes) (e : ProgramError)
       (mi' : AccountInfo),
       Processor.process_initialize_mint rent mi auth = .returns (.error e, mi') →
       mi' = mi) ∧
    (∀ (P : Primitives) (rent : Rent) (mi di ai : AccountInfo)
       (d : Txdata.MintData) (e : ProgramError) (mi' di' : AccountInfo),
       Processor.process_mint P rent mi di ai d = .returns (.error e, mi', di') →
       mi' = mi ∧ di' = di) ∧
    (∀ (P : Primitives) (rent : Rent) (mi s0 s1 d0 d1 : AccountInfo)
       (td : Txdata.TransferData) (e : ProgramError) (s0' s1' d0' d1' : AccountInfo),
       Processor.process_transfer P rent mi s0 s1 d0 d1 td =
         .returns (.error e, s0', s1', d0', d1') →
       s0' = s0 ∧ s1' = s1 ∧ d0' = d0 ∧ d1' = d1) ∧
    (∀ (src dst : AccountInfo) (d : Txdata.CloseAccountData),
       Processor.process_close_account src dst d = (.ok (), src, dst)) :=
  ⟨process_initialize_mint_error_unchanged, process_mint_error_unchanged,
   process_transfer_error_unchanged, fun _ _ _ => rfl⟩

/-- Final mint account returned by `process_initialize_mint` (the input
account if the handler panicked). -/
def initMintFinalAccount (rent : Rent) (mi : AccountInfo) (auth : Bytes) : AccountInfo :=
  match Processor.process_initialize_mint rent mi auth with
  | .returns (_, a) => a
  | .panics => mi

/-- C7 witness: re-initializing an already-initialized mint is rejected with
`AlreadyInUse` and, by the write-after-verify theorem, hands back the mint
account unchanged. -/
theorem rejected_instruction_leaves_accounts_witness :
    initMintFinalAccount rentAll mintFresh authKey = mintFresh :=
  rejected_instruction_leaves_accounts.1 rentAll mintFresh authKey
    (.custom .AlreadyInUse) (initMintFinalAccount rentAll mintFresh authKey)
    (by decide)

/-- Fixture: a mint account whose data encodes supply 1 with the
initialization flag clear — uninitialized, but with a stale supply field. -/
def mintDirty : AccountInfo :=
  { key := mintKey, lamports := 1000
    data := serializeMint { mint_authority := zeroBytes 32, supply := 1, is_initialized := false }
    is_signer := false }

/-- C8 counterexample: `InitializeMint` on this rent-exempt, uninitialized
account succeeds, but the persisted supply is the stale value 1, not the 0
the claim asserts — the handler never writes `supply := 0`. -/
theorem initialize_mint_stale_supply_cex :
    Mint.unpack_unchecked mintDirty.data =
      .ok { mint_authority := zeroBytes 32, supply := 1, is_initialized := false } ∧
    rentAll mintDirty.lamports mintDirty.data.length = true ∧
    Processor.process_initialize_mint rentAll mintDirty authKey =
      .returns (.ok (),
        { mintDirty with data :=
            serializeMint { mint_authority := authKey, supply := 1, is_initialized := true } }) :=
  ⟨by decide, by decide, by decide⟩

/-- C8 amended: `InitializeMint` on a rent-exempt, not-yet-initialized mint
account succeeds and persists the supplied authority with the
initialization latch set, while the supply field keeps the value already
encoded in the account data (0 for a zeroed fresh account); re-submitting
on the resulting account fails with `AlreadyInUse` and changes nothing. -/
theorem initialize_mint_sets_authority_and_latch :
    ∀ (rent rent2 : Rent) (mi : AccountInfo) (auth auth2 : Bytes) (m : Mint),
      Mint.unpack_unchecked mi.data = .ok m →
      m.is_initialized = false →
      rent mi.lamports mi.data.length = true →
      auth.length = 32 →
      Processor.process_initialize_mint rent mi auth =
        .returns (.ok (), withData mi (serializeMint ⟨auth, m.supply, true⟩)) ∧
      Processor.process_initialize_mint rent2
          (withData mi (serializeMint ⟨auth, m.supply, true⟩)) auth2 =
        .returns (.error (.custom .AlreadyInUse),
                  withData mi (serializeMint ⟨auth, m.supply, true⟩)) := by
  intro rent rent2 mi auth auth2 m hm hinit hrent hauth
  have hlen := Mint.unpack_unchecked_len41 hm
  have hwf := Mint.unpack_unchecked_wf hm
  constructor
  · have hpack :
        Mint.pack { m with mint_authority := auth, is_initialized := true } mi.data =
          .returns (some (serializeMint { m with mint_authority := auth, is_initialized := true })) :=
      Mint.pack_ok41 hlen (serializeMint_length hauth)
    simp only [Processor.process_initialize_mint, hm]
    simp [hinit, hrent, hpack, withData]
  · have hroundtrip :
        Mint.unpack_unchecked
          (serializeMint { mint_authority := auth, supply := m.supply, is_initialized := true }) =
          .ok { mint_authority := auth, supply := m.supply, is_initialized := true } :=
      Mint.unpack_unchecked_serializeMint hauth hwf.2
    simp only [Processor.process_initialize_mint]
    simp [hroundtrip, withData]

/-- Fixture: a zeroed, rent-exempt mint account. -/
def mintZeroed : AccountInfo :=
  { key := mintKey, lamports := 1000, data := zeroBytes 41, is_signer := false }

/-- C8 witness: on a zeroed fresh account the amended theorem yields success
with authority set, supply 0 and the latch set, and `AlreadyInUse` on
re-submission. -/
theorem initialize_mint_sets_authority_and_latch_witness :
    Processor.process_initialize_mint rentAll mintZeroed authKey =
      .returns (.ok (), withData mintZeroed (serializeMint ⟨authKey, 0, true⟩)) ∧
    Processor.process_initialize_mint rentAll
        (withData mintZeroed (serializeMint ⟨authKey, 0, true⟩)) authKey =
      .returns (.error (.custom .AlreadyInUse),
                withData mintZeroed (serializeMint ⟨authKey, 0, true⟩)) :=
  initialize_mint_sets_authority_and_latch rentAll rentAll mintZeroed authKey authKey
    { mint_authority := zeroBytes 32, supply := 0, is_initialized := false }
    (by decide) (by decide) (by decide) (by decide)

/-- Fixture: zeroed (uninitialized) source accounts for the C9 transfer. -/
def srcU0 : AccountInfo :=
  { key := List.replicate 32 20, lamports := 100, data := zeroBytes 65, is_signer := false }

/-- Fixture: second zeroed source account. -/
def srcU1 : AccountInfo :=
  { key := List.replicate 32 21, lamports := 100, data := zeroBytes 65, is_signer := false }

/-- Fixture: a mint account whose address is the zero pubkey, matching the
`mint` field of a zeroed account record. -/
def mintZeroKey : AccountInfo :=
  { key := zeroBytes 32, lamports := 100, data := zeroBytes 41, is_signer := false }

/-- Fixture: fresh destination accounts for the C9 transfer. -/
def dstU0 : AccountInfo :=
  { key := List.replicate 32 22, lamports := 100, data := zeroBytes 65, is_signer := false }

/-- Fixture: second fresh destination account. -/
def dstU1 : AccountInfo :=
  { key := List.replicate 32 23, lamports := 100, data := zeroBytes 65, is_signer := false }

/-- Transfer payload whose declared inputs are the zero commitments stored
in the zeroed source accounts. -/
def tdZero : Txdata.TransferData :=
  { in_comms := (zeroBytes 32, zeroBytes 32)
    out_comms := (zeroBytes 32, zeroBytes 32)
    range_proofs := ((), ())
    proofs_knowledge := (pokZero, pokZero) }

/-- C9 counterexample: the claim says an account is consumed as a Transfer
source only in the Init state, but `process_transfer` never checks that a
source is initialized.  Both source accounts here are uninitialized
(zeroed), yet the transfer is accepted and drains them. -/
theorem transfer_consumes_uninitialized_source_cex :
    Account.unpack_unchecked srcU0.data =
      .ok { mint := zeroBytes 32, is_initialized := false, comm := zeroBytes 32 } ∧
    Processor.process_transfer toyP rentAll mintZeroKey srcU0 srcU1 dstU0 dstU1 tdZero =
      .returns (.ok (),
        { srcU0 with lamports := 0 },
        { srcU1 with lamports := 0 },
        withData dstU0 (serializeAccount ⟨zeroBytes 32, true, zeroBytes 32⟩),
        withData dstU1 (serializeAccount ⟨zeroBytes 32, true, zeroBytes 32⟩)) :=
  ⟨by decide, by decide⟩

/-- C9 amended: the destination half of the state machine does hold — an
accepted Mint or Transfer requires each destination account to have been
uninitialized before (an initialized destination is rejected with
`AlreadyInUse`), so an account record enters the Init state at most once,
and an accepted Transfer leaves the data of both source accounts intact
(only their lamports are drained) — but the code does not require a
Transfer source to be initialized, only that its stored commitment and mint
match the payload. -/
theorem account_initialized_at_most_once :
    (∀ (P : Primitives) (rent : Rent) (mi di ai : AccountInfo)
       (d : Txdata.MintData) (mi' di' : AccountInfo),
       Processor.process_mint P rent mi di ai d = .returns (.ok (), mi', di') →
       ∃ dest, Account.unpack_unchecked di.data = .ok dest ∧
         dest.is_initialized = false) ∧
    (∀ (P : Primitives) (rent : Rent) (mi s0 s1 d0 d1 : AccountInfo)
       (td : Txdata.TransferData) (s0' s1' d0' d1' : AccountInfo),
       Processor.process_transfer P rent mi s0 s1 d0 d1 td =
         .returns (.ok (), s0', s1', d0', d1') →
       (∃ a0, Account.unpack_unchecked d0.data = .ok a0 ∧
          a0.is_initialized = false) ∧
       (∃ a1, Account.unpack_unchecked d1.data = .ok a1 ∧
          a1.is_initialized = false) ∧
       s0'.data = s0.data ∧ s1'.data = s1.data) := by
  constructor
  · intro P rent mi di ai d mi' di' h
    simp only [Processor.process_mint] at h
    split at h
    case h_1 => simp_all
    case h_2 dest hdest =>
    refine ⟨dest, hdest, ?_⟩
    split at h
    case isTrue => simp_all
    case isFalse hni => simpa using hni
  · intro P rent mi s0 s1 d0 d1 td s0' s1' d0' d1' h
    simp only [Processor.process_transfer] at h
    split at h
    case h_1 => simp_all
    case h_2 ss hss =>
    split at h
    case h_1 => simp_all
    case h_2 rs hrs =>
    split at h
    case isTrue => simp_all
    case isFalse =>
    split at h
    case isTrue => simp_all
    case isFalse =>
    split at h
    case h_1 => simp_all
    case h_2 sd hsd =>
    split at h
    case h_1 => simp_all
    case h_2 rd hrd =>
    split at h
    case isTrue => simp_all
    case isFalse hni =>
    have hni' : sd.is_initialized = false ∧ rd.is_initialized = false := by
      constructor <;> simp_all [not_or]
    refine ⟨⟨sd, hsd, hni'.1⟩, ⟨rd, hrd, hni'.2⟩, ?_⟩
    split at h
    case isTrue => simp_all
    case isFalse =>
    split at h
    case h_1 => simp_all
    case h_2 => simp_all
    case h_3 =>
    split at h
    case h_1 => simp_all
    case h_2 => simp_all
    case h_3 sdd hsdd =>
    split at h
    case h_1 => simp_all
    case h_2 => simp_all
    case h_3 rdd hrdd =>
      simp only [Outcome.returns.injEq, Prod.mk.injEq] at h
      obtain ⟨-, hs0, hs1, -, -⟩ := h
      constructor
      · rw [← hs0]
      · rw [← hs1]

/-- C9 witness: an accepted concrete mint implies its destination account
was uninitialized beforehand. -/
theorem account_initialized_at_most_once_witness :
    ∃ dest, Account.unpack_unchecked destFresh1.data = .ok dest ∧
      dest.is_initialized = false :=
  account_initialized_at_most_once.1 toyP rentAll mintFresh destFresh1 authInfo mdZero
    (withData mintFresh (serializeMint ⟨authKey, 57, true⟩))
    (withData destFresh1 (serializeAccount ⟨mintKey, true, zeroBytes 32⟩))
    (by decide)

/-- C10: `process_mint` reads the expected-authority account only through
its address and compares it with the recorded mint authority; the signer
flag is never inspected, so two runs that differ only in whether the
authority actually signed produce identical results. -/
theorem mint_outcome_ignores_signer_flag :
    ∀ (P : Primitives) (rent : Rent) (mint_info dest_info authority_info : AccountInfo)
      (d : Txdata.MintData) (b : Bool),
      Processor.process_mint P rent mint_info dest_info
          { authority_info with is_signer := b } d =
        Processor.process_mint P rent mint_info dest_info authority_info d :=
  fun _ _ _ _ _ _ _ => rfl

end CToken
